import Mathlib

/-!
Shallow embedding of `rosbag_tools/split/splitter.py` (class `BagSplitter`).

Times are modelled as rationals (`ℚ`): the Python code mixes integer
nanosecond timestamps (`bag.start_time`, `bag.end_time`, message stamps)
with float second offsets multiplied by `1e9`; `ℚ` captures the intended
exact arithmetic.  Fallible Python code (raised exceptions) is modelled
with `Except SplitError`.  The file system touched by
`_check_export_path` / `delete_rosbag` is modelled as a map from paths to
entries, threaded explicitly.
-/

namespace RosbagTools

/-- Decidable equality on `Except`, so that concrete runs can be settled
by evaluation. -/
instance {ε α : Type} [DecidableEq ε] [DecidableEq α] : DecidableEq (Except ε α) := fun a b =>
  match a, b with
  | .error x, .error y =>
      match decEq x y with
      | isTrue h => isTrue (h ▸ rfl)
      | isFalse h => isFalse fun hc => h (by injection hc)
  | .error _, .ok _ => isFalse fun hc => Except.noConfusion hc
  | .ok _, .error _ => isFalse fun hc => Except.noConfusion hc
  | .ok x, .ok y =>
      match decEq x y with
      | isTrue h => isTrue (h ▸ rfl)
      | isFalse h => isFalse fun hc => h (by injection hc)

/-- Python `pathlib.Path`, restricted to what the splitter uses: the parent
directory, the stem (final name without the last suffix) and the suffix.
`with_name(stem + n + suffix)` keeps `parent` and `suffix` and changes the
stem. -/
structure FPath where
  parent : String
  stem : String
  suffix : String
deriving DecidableEq

/-- State of one path in the file system: missing, a plain file, or a
directory (recording whether it contains at least one `*.db3` file, which is
what `delete_rosbag` globs for). -/
inductive FsEntry
  | absent
  | file
  | dir (hasDb3 : Bool)
deriving DecidableEq

/-- Abstract file system: each path is in one state. -/
def FileSystem : Type := FPath → FsEntry

/-- Effect of `path.unlink()` / `shutil.rmtree(path)`: the path is gone. -/
def removePath (fs : FileSystem) (p : FPath) : FileSystem :=
  fun q => if q = p then .absent else fs q

/-- Format-specific connection metadata (`conn.ext`), one constructor per
container family: `ConnectionExtRosbag1` carries `callerid` and `latching`,
`ConnectionExtRosbag2` carries `serialization_format` and
`offered_qos_profiles`. -/
inductive ConnExt
  | ros1Ext (callerid : String) (latching : Int)
  | ros2Ext (serialization_format : String) (offered_qos_profiles : String)
deriving DecidableEq

/-- Source channel descriptor (`rosbags` `Connection`): id, topic, message
type, definition, checksum and family-specific metadata. -/
structure Connection where
  id : Nat
  topic : String
  msgtype : String
  msgdef : String
  md5sum : String
  ext : ConnExt
deriving DecidableEq

/-- Destination channel descriptor: exactly the arguments the splitter
passes to `writer.add_connection` in each of the two branches of
`set_writer_connections`. -/
inductive WriterConn
  | ros1 (topic msgtype msgdef md5sum callerid : String) (latching : Int)
  | ros2 (topic msgtype serialization_format offered_qos_profiles : String)
deriving DecidableEq

/-- Topic of a destination channel descriptor. -/
def WriterConn.topic : WriterConn → String
  | .ros1 t _ _ _ _ _ => t
  | .ros2 t _ _ _ => t

/-- One record of the source stream, as yielded by `reader.messages()`:
the id of its connection, its timestamp, and its raw payload. -/
structure Msg where
  cid : Nat
  ts : ℚ
  data : String
deriving DecidableEq

/-- What the splitter reads from the bound source bag: recording span,
channel table and the finite message stream in source order. -/
structure BagData where
  start_time : ℚ
  end_time : ℚ
  connections : List Connection
  messages : List Msg
deriving DecidableEq

/-- Exceptions raised by the splitter.  `pathCollision` and
`destinationExists` are both `FileExistsError` in Python, distinguished by
their message; `invalidTimestamp` is `InvalidTimestampError` carrying the
offending `time_ns`; `invalidRosbag` is the `ValueError` of
`delete_rosbag`; `notImplementedConversion` is the `NotImplementedError`
for cross-family output; `typeError` is Python's `TypeError` from iterating
over `None`; `keyError` / `indexError` / `attributeError` model the
corresponding dynamic failures of dict lookup, list indexing and
`conn.ext` attribute access. -/
inductive SplitError
  | invalidTimestamp (time_ns : ℚ)
  | pathCollision
  | destinationExists
  | invalidRosbag
  | notImplementedConversion
  | typeError
  | keyError
  | indexError
  | attributeError
deriving DecidableEq

/-- Family detection used by `get_reader_class` / `get_writer_class`:
ROS 1 iff the path's suffix is `.bag`. -/
def is_ros1_format (p : FPath) : Bool := p.suffix == ".bag"

/-- Embedding of `BagSplitter.delete_rosbag`: unlink a `.bag` file, remove
a directory holding `*.db3` files, refuse anything else with `ValueError`.
Returns the file system after the deletion. -/
def delete_rosbag (fs : FileSystem) (path : FPath) : Except SplitError FileSystem :=
  let is_ros1 := (match fs path with | .file => true | _ => false) && path.suffix == ".bag"
  let is_ros2 := match fs path with | .dir hasDb3 => hasDb3 | _ => false
  if is_ros1 then .ok (removePath fs path)
  else if is_ros2 then .ok (removePath fs path)
  else .error .invalidRosbag

/-- Loop body of `BagSplitter._check_cutoff_limits`: for each offset `ts`
(seconds), `time_ns = ts * 1e9`; raise `InvalidTimestampError` if
`time_ns + bag_start < bag_start` or `time_ns + bag_start > bag_end`,
stopping at the first violation. -/
def cutoff_loop (bag_start bag_end : ℚ) : List ℚ → Except SplitError Unit
  | [] => .ok ()
  | ts :: rest =>
    let time_ns := ts * 1000000000
    if time_ns + bag_start < bag_start then .error (.invalidTimestamp time_ns)
    else if time_ns + bag_start > bag_end then .error (.invalidTimestamp time_ns)
    else cutoff_loop bag_start bag_end rest

/-- Embedding of `BagSplitter._check_cutoff_limits`.  The argument is the
`timestamps` parameter of `split_rosbag`, whose default is `None`:
iterating over `None` raises `TypeError`. -/
def _check_cutoff_limits (bag_start bag_end : ℚ) :
    Option (List ℚ) → Except SplitError Unit
  | none => .error .typeError
  | some tss => cutoff_loop bag_start bag_end tss

/-- Embedding of `BagSplitter._check_export_path`: raise on output path
equal to the input path; raise on an existing path without `force_out`;
with `force_out`, delete the existing rosbag (which may itself raise).
Returns the file system after any deletion. -/
def _check_export_path (inbag : FPath) (fs : FileSystem) (export_path : FPath)
    (force_out : Bool) : Except SplitError FileSystem :=
  if export_path = inbag then .error .pathCollision
  else if (match fs export_path with | .absent => false | _ => true) && !force_out then
    .error .destinationExists
  else if (match fs export_path with | .absent => false | _ => true) && force_out then
    delete_rosbag fs export_path
  else .ok fs

/-- Loop body of `BagSplitter.set_writer_connections`: walk the source
connections, skip the topic `/events/write_split`, and register the rest
with the writer, copying the family-specific metadata fields.  Destination
ids are assigned fresh by the writer, in registration order.  Accessing
ROS 1 fields of a ROS 2 `ext` (or vice versa) is Python's
`AttributeError` after the unchecked `cast`. -/
def swc_loop (is_ros1_writer : Bool) :
    List Connection → List (Nat × Nat) → List WriterConn →
    Except SplitError (List (Nat × Nat) × List WriterConn)
  | [], conn_map, wconns => .ok (conn_map, wconns)
  | conn :: rest, conn_map, wconns =>
    if conn.topic = "/events/write_split" then swc_loop is_ros1_writer rest conn_map wconns
    else if is_ros1_writer then
      match conn.ext with
      | .ros1Ext callerid latching =>
          swc_loop is_ros1_writer rest (conn_map ++ [(conn.id, wconns.length)])
            (wconns ++ [.ros1 conn.topic conn.msgtype conn.msgdef conn.md5sum callerid latching])
      | .ros2Ext _ _ => .error .attributeError
    else
      match conn.ext with
      | .ros2Ext sf qos =>
          swc_loop is_ros1_writer rest (conn_map ++ [(conn.id, wconns.length)])
            (wconns ++ [.ros2 conn.topic conn.msgtype sf qos])
      | .ros1Ext _ _ => .error .attributeError

/-- Embedding of `BagSplitter.set_writer_connections`: starts from an empty
`conn_map = {}` and a freshly opened writer (no connections yet), returns
the routing map together with the writer's resulting channel table. -/
def set_writer_connections (is_ros1_writer : Bool) (connections : List Connection) :
    Except SplitError (List (Nat × Nat) × List WriterConn) :=
  swc_loop is_ros1_writer connections [] []

/-- Python dict lookup for a dict built by repeated `d[k] = v`: the last
binding of a key wins. -/
def dictGet (m : List (Nat × Nat)) (k : Nat) : Option Nat :=
  m.reverse.lookup k

/-- Per-segment output path:
`base_path.with_name(base_path.stem + str(ctr) + base_path.suffix)`. -/
def exportPathFor (base : FPath) (ctr : Nat) : FPath :=
  { base with stem := base.stem ++ toString ctr }

/-- One output writer: its path, its channel table, and the records written
to it (destination channel id, timestamp, payload), in write order. -/
structure WriterData where
  path : FPath
  conns : List WriterConn
  msgs : List (Nat × ℚ × String)
deriving DecidableEq

/-- Mutable state of the message loop of `split_rosbag`: the segment
counter `outbag_ctr`, the active bounds `s_cliptstamp` / `e_cliptstamp`,
the file system (mutated by forced deletions), the currently open writer
with its routing map, and the already closed writers in order. -/
structure SplitState where
  outbag_ctr : Nat
  s_clip : ℚ
  e_clip : ℚ
  fsys : FileSystem
  writer : WriterData
  conn_map : List (Nat × Nat)
  closed : List WriterData

/-- Loop-invariant inputs of the message loop: input bag path, output base
path (`base_path = Path(outbag_path)`, also what the in-loop
`get_writer_class(outbag_path)` is called on), the overwrite flag, the
recording start, the converted cut list (with the appended sentinel), and
the source channel table. -/
structure SplitCtx where
  inbag : FPath
  base : FPath
  force_out : Bool
  bag_start : ℚ
  ts_ns : List ℚ
  connections : List Connection

/-- Body of the `for conn, timestamp, data in reader.messages()` loop of
`split_rosbag`.  A message inside `[s_cliptstamp, e_cliptstamp]` (both
bounds inclusive) is written through the routing map to the open writer.
Otherwise the code rotates: it increments `outbag_ctr`, sets
`s_cliptstamp` to the message's own timestamp and `e_cliptstamp` to
`bag_start + timestamps[outbag_ctr - 1]`, checks and possibly clears the
next export path, closes the current writer, opens a fresh one there and
rebuilds the routing map from scratch — and then moves on without writing
the message that triggered the rotation. -/
def split_step (ctx : SplitCtx) (st : SplitState) (m : Msg) : Except SplitError SplitState :=
  if st.s_clip ≤ m.ts ∧ m.ts ≤ st.e_clip then
    match dictGet st.conn_map m.cid with
    | none => .error .keyError
    | some dest =>
      .ok { st with writer := { st.writer with msgs := st.writer.msgs ++ [(dest, m.ts, m.data)] } }
  else
    let ctr := st.outbag_ctr + 1
    match ctx.ts_ns.get? (ctr - 1) with
    | none => .error .indexError
    | some t_k =>
      let e := ctx.bag_start + t_k
      let export_path := exportPathFor ctx.base ctr
      match _check_export_path ctx.inbag st.fsys export_path ctx.force_out with
      | .error err => .error err
      | .ok fs' =>
        match set_writer_connections (is_ros1_format ctx.base) ctx.connections with
        | .error err => .error err
        | .ok (cm, wconns) =>
          .ok { outbag_ctr := ctr, s_clip := m.ts, e_clip := e, fsys := fs',
                writer := { path := export_path, conns := wconns, msgs := [] },
                conn_map := cm, closed := st.closed ++ [st.writer] }

/-- The message loop itself: run `split_step` over the source stream. -/
def split_loop (ctx : SplitCtx) : List Msg → SplitState → Except SplitError SplitState
  | [], st => .ok st
  | m :: rest, st =>
    match split_step ctx st m with
    | .error err => .error err
    | .ok st' => split_loop ctx rest st'

/-- Embedding of `BagSplitter.split_rosbag`, returning the final loop
state.  In source order: validate the cutoffs (a `None` argument raises
`TypeError` inside the validator), compute the first export path, check
it, refuse cross-family output, open the first writer and build its
routing map, convert the offsets to nanoseconds and append
`self._bag_end` as sentinel, initialize the clip bounds and run the
loop.  The final `writer.close()` is the passage from the state to the
segment list in `split_rosbag` below. -/
def split_rosbag_run (bag : BagData) (inbag : FPath) (fs : FileSystem)
    (timestamps : Option (List ℚ)) (outbag_path : FPath) (force_out : Bool) :
    Except SplitError SplitState :=
  match _check_cutoff_limits bag.start_time bag.end_time timestamps with
  | .error err => .error err
  | .ok _ =>
    match timestamps with
    | none => .error .typeError
    | some tss =>
      let base := outbag_path
      let export_path := exportPathFor base 1
      match _check_export_path inbag fs export_path force_out with
      | .error err => .error err
      | .ok fs1 =>
        if is_ros1_format inbag != is_ros1_format export_path then
          .error .notImplementedConversion
        else
          match set_writer_connections (is_ros1_format export_path) bag.connections with
          | .error err => .error err
          | .ok (cm, wconns) =>
            let ts_ns := tss.map (fun ts => ts * 1000000000) ++ [bag.end_time]
            match ts_ns.get? 0 with
            | none => .error .indexError
            | some t0 =>
              split_loop
                { inbag := inbag, base := base, force_out := force_out,
                  bag_start := bag.start_time, ts_ns := ts_ns,
                  connections := bag.connections }
                bag.messages
                { outbag_ctr := 1, s_clip := bag.start_time,
                  e_clip := bag.start_time + t0, fsys := fs1,
                  writer := { path := export_path, conns := wconns, msgs := [] },
                  conn_map := cm, closed := [] }

/-- Result of a successful split: the output segments in creation order
(each one closed exactly once; the last `writer.close()` closes the final
writer). -/
structure SplitResult where
  segments : List WriterData
deriving DecidableEq

/-- Observable outcome of `BagSplitter.split_rosbag`: the closed output
segments, in order. -/
def split_rosbag (bag : BagData) (inbag : FPath) (fs : FileSystem)
    (timestamps : Option (List ℚ)) (outbag_path : FPath) (force_out : Bool) :
    Except SplitError SplitResult :=
  (split_rosbag_run bag inbag fs timestamps outbag_path force_out).map
    (fun st => { segments := st.closed ++ [st.writer] })

/-- Upper bound installed for segment number `ctr`: the code evaluates
`self._bag_start + timestamps[ctr - 1]` (both at initialization, with
`ctr = 1`, and at every rotation). -/
def seg_end_bound (bag_start : ℚ) (ts_ns : List ℚ) (ctr : Nat) : Option ℚ :=
  (ts_ns.get? (ctr - 1)).map (fun t => bag_start + t)

/-- The converted cut list of `split_rosbag`:
`timestamps = [ts * 1e9 for ts in timestamps]` followed by
`timestamps.append(self._bag_end)`. -/
def cut_list (tss : List ℚ) (bag_end : ℚ) : List ℚ :=
  tss.map (fun ts => ts * 1000000000) ++ [bag_end]

/-! Generic helper lemmas. -/

lemma except_map_ok {α β ε : Type} (f : α → β) (x : Except ε α) (y : β)
    (h : x.map f = .ok y) : ∃ a, x = .ok a ∧ y = f a := by
  cases x with
  | error e => simp [Except.map] at h
  | ok a =>
    refine ⟨a, rfl, ?_⟩
    simpa [Except.map] using h.symm

lemma is_ros1_format_exportPathFor (p : FPath) (k : Nat) :
    is_ros1_format (exportPathFor p k) = is_ros1_format p := rfl

lemma cut_list_def (tss : List ℚ) (e : ℚ) :
    cut_list tss e = tss.map (fun ts => ts * 1000000000) ++ [e] := rfl

lemma cut_list_length (tss : List ℚ) (e : ℚ) :
    (cut_list tss e).length = tss.length + 1 := by
  simp [cut_list]

/-- Inversion of one successful loop step: either the message was in the
active span and was written, or it fell outside, the writers rotated and
the message was dropped. -/
lemma split_step_ok_cases (ctx : SplitCtx) (st : SplitState) (m : Msg) (st' : SplitState)
    (h : split_step ctx st m = .ok st') :
    (∃ dest, (st.s_clip ≤ m.ts ∧ m.ts ≤ st.e_clip) ∧
      dictGet st.conn_map m.cid = some dest ∧
      st' = { st with writer := { st.writer with
        msgs := st.writer.msgs ++ [(dest, m.ts, m.data)] } })
    ∨ (∃ t_k fs' cm wconns, ¬(st.s_clip ≤ m.ts ∧ m.ts ≤ st.e_clip) ∧
        ctx.ts_ns.get? st.outbag_ctr = some t_k ∧
        _check_export_path ctx.inbag st.fsys (exportPathFor ctx.base (st.outbag_ctr + 1))
          ctx.force_out = .ok fs' ∧
        set_writer_connections (is_ros1_format ctx.base) ctx.connections = .ok (cm, wconns) ∧
        st' = { outbag_ctr := st.outbag_ctr + 1, s_clip := m.ts,
                e_clip := ctx.bag_start + t_k, fsys := fs',
                writer := ⟨exportPathFor ctx.base (st.outbag_ctr + 1), wconns, []⟩,
                conn_map := cm, closed := st.closed ++ [st.writer] }) := by
  simp only [split_step, Nat.add_sub_cancel] at h
  by_cases hin : st.s_clip ≤ m.ts ∧ m.ts ≤ st.e_clip
  · rw [if_pos hin] at h
    cases hd : dictGet st.conn_map m.cid with
    | none => rw [hd] at h; simp at h
    | some dest =>
      rw [hd] at h
      cases h
      exact Or.inl ⟨dest, hin, rfl, rfl⟩
  · rw [if_neg hin] at h
    cases ht : ctx.ts_ns.get? st.outbag_ctr with
    | none => rw [ht] at h; simp at h
    | some t_k =>
      rw [ht] at h
      cases hcp : _check_export_path ctx.inbag st.fsys
          (exportPathFor ctx.base (st.outbag_ctr + 1)) ctx.force_out with
      | error e => rw [hcp] at h; simp at h
      | ok fs' =>
        rw [hcp] at h
        cases hswc : set_writer_connections (is_ros1_format ctx.base) ctx.connections with
        | error e => rw [hswc] at h; simp at h
        | ok pr =>
          obtain ⟨cm, wconns⟩ := pr
          rw [hswc] at h
          cases h
          exact Or.inr ⟨t_k, fs', cm, wconns, hin, rfl, rfl, rfl, rfl⟩

/-- Loop invariant for the segment count: one closed writer per rotation,
and the segment counter never exceeds the length of the extended cut
list (each rotation indexes it successfully). -/
lemma split_loop_count (ctx : SplitCtx) (msgs : List Msg) (st st' : SplitState)
    (h : split_loop ctx msgs st = .ok st')
    (h1 : st.closed.length + 1 = st.outbag_ctr)
    (h2 : st.outbag_ctr ≤ ctx.ts_ns.length) :
    st'.closed.length + 1 = st'.outbag_ctr ∧ st'.outbag_ctr ≤ ctx.ts_ns.length := by
  induction msgs generalizing st with
  | nil =>
    simp only [split_loop] at h
    cases h
    exact ⟨h1, h2⟩
  | cons m rest ih =>
    simp only [split_loop] at h
    cases hstep : split_step ctx st m with
    | error e => rw [hstep] at h; simp at h
    | ok st1 =>
      rw [hstep] at h
      rcases split_step_ok_cases ctx st m st1 hstep with
        ⟨d, _, _, rfl⟩ | ⟨tk, fs', cm, wc, _, hget, _, _, rfl⟩
      · exact ih _ h h1 h2
      · refine ih _ h ?_ ?_
        · show (st.closed ++ [st.writer]).length + 1 = st.outbag_ctr + 1
          simp only [List.length_append, List.length_singleton]
          omega
        · show st.outbag_ctr + 1 ≤ ctx.ts_ns.length
          obtain ⟨hlt, -⟩ := List.get?_eq_some.mp hget
          omega

/-- Inversion of a successful `split_rosbag_run`: all the up-front checks
passed and the final state is the result of running the loop from the
initial state. -/
lemma split_rosbag_run_some_ok (bag : BagData) (inbag : FPath) (fs : FileSystem)
    (tss : List ℚ) (out : FPath) (force : Bool) (st : SplitState)
    (h : split_rosbag_run bag inbag fs (some tss) out force = .ok st) :
    ∃ fs1 cm wconns t0,
      cutoff_loop bag.start_time bag.end_time tss = .ok () ∧
      _check_export_path inbag fs (exportPathFor out 1) force = .ok fs1 ∧
      is_ros1_format inbag = is_ros1_format out ∧
      set_writer_connections (is_ros1_format out) bag.connections = .ok (cm, wconns) ∧
      (cut_list tss bag.end_time).get? 0 = some t0 ∧
      split_loop
        { inbag := inbag, base := out, force_out := force,
          bag_start := bag.start_time, ts_ns := cut_list tss bag.end_time,
          connections := bag.connections }
        bag.messages
        { outbag_ctr := 1, s_clip := bag.start_time,
          e_clip := bag.start_time + t0, fsys := fs1,
          writer := ⟨exportPathFor out 1, wconns, []⟩,
          conn_map := cm, closed := [] } = .ok st := by
  simp only [split_rosbag_run, _check_cutoff_limits] at h
  cases hc : cutoff_loop bag.start_time bag.end_time tss with
  | error e => simp only [hc] at h; simp at h
  | ok u =>
    cases u
    simp only [hc] at h
    cases hp : _check_export_path inbag fs (exportPathFor out 1) force with
    | error e => simp only [hp] at h; simp at h
    | ok fs1 =>
      simp only [hp] at h
      cases hfam : is_ros1_format inbag != is_ros1_format (exportPathFor out 1) with
      | true => simp only [hfam] at h; simp at h
      | false =>
        simp only [hfam] at h
        rw [if_neg (by simp : ¬(false = true))] at h
        have hfam' : is_ros1_format inbag = is_ros1_format out := by
          have := bne_eq_false_iff_eq.mp hfam
          rwa [is_ros1_format_exportPathFor] at this
        cases hswc : set_writer_connections (is_ros1_format (exportPathFor out 1))
            bag.connections with
        | error e => simp only [hswc] at h; simp at h
        | ok pr =>
          obtain ⟨cm, wconns⟩ := pr
          simp only [hswc] at h
          cases hget : (tss.map (fun ts => ts * 1000000000) ++ [bag.end_time]).get? 0 with
          | none => simp only [hget] at h; simp at h
          | some t0 =>
            simp only [hget] at h
            refine ⟨fs1, cm, wconns, t0, rfl, rfl, hfam', ?_, ?_, h⟩
            · rwa [is_ros1_format_exportPathFor] at hswc
            · rw [cut_list_def]; exact hget

/-- A message inside the active span with a routable connection id is
appended to the open writer. -/
lemma split_step_write (ctx : SplitCtx) (st : SplitState) (m : Msg) (d : Nat)
    (hin : st.s_clip ≤ m.ts ∧ m.ts ≤ st.e_clip)
    (hd : dictGet st.conn_map m.cid = some d) :
    split_step ctx st m = .ok { st with writer := { st.writer with
      msgs := st.writer.msgs ++ [(d, m.ts, m.data)] } } := by
  unfold split_step
  rw [if_pos hin, hd]

/-- If every remaining message lies in the active span and is routable,
the loop never rotates: it just appends the routed messages, in order,
to the open writer. -/
lemma split_loop_stay (ctx : SplitCtx) (msgs : List Msg) (st : SplitState)
    (hmsgs : ∀ m ∈ msgs, (st.s_clip ≤ m.ts ∧ m.ts ≤ st.e_clip) ∧
      (dictGet st.conn_map m.cid).isSome) :
    split_loop ctx msgs st = .ok { st with writer := { st.writer with
      msgs := st.writer.msgs ++
        msgs.map (fun m => ((dictGet st.conn_map m.cid).getD 0, m.ts, m.data)) } } := by
  induction msgs generalizing st with
  | nil => simp only [split_loop, List.map_nil, List.append_nil]
  | cons m rest ih =>
    obtain ⟨hin, hsome⟩ := hmsgs m (List.mem_cons_self m rest)
    obtain ⟨d, hd⟩ := Option.isSome_iff_exists.mp hsome
    simp only [split_loop, split_step_write ctx st m d hin hd]
    rw [ih { st with writer := { st.writer with
        msgs := st.writer.msgs ++ [(d, m.ts, m.data)] } }
      (fun m' hm' => hmsgs m' (List.mem_cons_of_mem _ hm'))]
    simp [hd, List.append_assoc]

/-- Loop invariant for the channel tables: the open writer and every
closed writer carry the channel table built from scratch from the source
connections, and the active routing map is the freshly built one. -/
lemma split_loop_conns (ctx : SplitCtx) (cm : List (Nat × Nat)) (wc : List WriterConn)
    (hswc : set_writer_connections (is_ros1_format ctx.base) ctx.connections = .ok (cm, wc))
    (msgs : List Msg) (st st' : SplitState)
    (h : split_loop ctx msgs st = .ok st')
    (h1 : st.writer.conns = wc)
    (h2 : ∀ w ∈ st.closed, w.conns = wc) :
    st'.writer.conns = wc ∧ ∀ w ∈ st'.closed, w.conns = wc := by
  induction msgs generalizing st with
  | nil =>
    simp only [split_loop] at h
    cases h
    exact ⟨h1, h2⟩
  | cons m rest ih =>
    simp only [split_loop] at h
    cases hstep : split_step ctx st m with
    | error e => rw [hstep] at h; simp at h
    | ok st1 =>
      rw [hstep] at h
      rcases split_step_ok_cases ctx st m st1 hstep with
        ⟨d, -, -, rfl⟩ | ⟨tk, fs', cm2, wc2, -, -, -, hswc2, rfl⟩
      · exact ih _ h h1 h2
      · rw [hswc] at hswc2
        have hpair : (cm, wc) = (cm2, wc2) := by injection hswc2
        obtain ⟨-, hwc⟩ := Prod.mk.injEq _ _ _ _ |>.mp hpair
        refine ih _ h ?_ ?_
        · show wc2 = wc
          exact hwc.symm
        · intro w hw
          rcases List.mem_append.mp hw with hw | hw
          · exact h2 w hw
          · rw [List.mem_singleton.mp hw, h1]

/-- Characterization of `swc_loop`: the routing map's keys are exactly
the ids of the non-bookkeeping source connections (in order), and the
writer's channel table carries exactly their topics (in order). -/
lemma swc_loop_spec (f : Bool) (conns : List Connection) (cm0 : List (Nat × Nat))
    (wc0 : List WriterConn) (cm : List (Nat × Nat)) (wc : List WriterConn)
    (h : swc_loop f conns cm0 wc0 = .ok (cm, wc)) :
    cm.map Prod.fst = cm0.map Prod.fst ++
      (conns.filter (fun c => c.topic ≠ "/events/write_split")).map Connection.id ∧
    wc.map WriterConn.topic = wc0.map WriterConn.topic ++
      (conns.filter (fun c => c.topic ≠ "/events/write_split")).map Connection.topic := by
  induction conns generalizing cm0 wc0 with
  | nil =>
    simp only [swc_loop] at h
    cases h
    simp
  | cons c rest ih =>
    by_cases hc : c.topic = "/events/write_split"
    · simp only [swc_loop, if_pos hc] at h
      have := ih _ _ h
      simpa [List.filter_cons, hc] using this
    · simp only [swc_loop, if_neg hc] at h
      cases f with
      | true =>
        rw [if_pos rfl] at h
        cases hext : c.ext with
        | ros1Ext callerid latching =>
          rw [hext] at h
          obtain ⟨ha, hb⟩ := ih _ _ h
          constructor
          · rw [ha]
            simp [List.filter_cons, hc]
          · rw [hb]
            simp [List.filter_cons, hc, WriterConn.topic]
        | ros2Ext sf qos =>
          rw [hext] at h
          simp at h
      | false =>
        rw [if_neg (by simp)] at h
        cases hext : c.ext with
        | ros2Ext sf qos =>
          rw [hext] at h
          obtain ⟨ha, hb⟩ := ih _ _ h
          constructor
          · rw [ha]
            simp [List.filter_cons, hc]
          · rw [hb]
            simp [List.filter_cons, hc, WriterConn.topic]
        | ros1Ext callerid latching =>
          rw [hext] at h
          simp at h

/-! Helper lemmas about the cutoff validator. -/

lemma cutoff_loop_ok_iff (s e : ℚ) (tss : List ℚ) :
    cutoff_loop s e tss = .ok () ↔
      ∀ ts ∈ tss, s ≤ ts * 1000000000 + s ∧ ts * 1000000000 + s ≤ e := by
  induction tss with
  | nil => simp [cutoff_loop]
  | cons t rest ih =>
    by_cases h1 : t * 1000000000 + s < s
    · simp only [cutoff_loop, if_pos h1]
      constructor
      · intro h; exact absurd h (by simp)
      · intro h; exact absurd (h t (List.mem_cons_self t rest)).1 (not_le.mpr h1)
    · by_cases h2 : t * 1000000000 + s > e
      · simp only [cutoff_loop, if_neg h1, if_pos h2]
        constructor
        · intro h; exact absurd h (by simp)
        · intro h; exact absurd (h t (List.mem_cons_self t rest)).2 (not_le.mpr h2)
      · simp only [cutoff_loop, if_neg h1, if_neg h2, ih, List.mem_cons]
        constructor
        · intro h ts hts
          rcases hts with rfl | hts
          · exact ⟨not_lt.mp h1, not_lt.mp h2⟩
          · exact h ts hts
        · intro h ts hts; exact h ts (Or.inr hts)

lemma cutoff_loop_error_find (s e : ℚ) (tss : List ℚ) (err : SplitError)
    (h : cutoff_loop s e tss = .error err) :
    ∃ ts, tss.find? (fun ts =>
        decide (ts * 1000000000 + s < s) || decide (e < ts * 1000000000 + s)) = some ts ∧
      err = .invalidTimestamp (ts * 1000000000) := by
  induction tss with
  | nil => simp [cutoff_loop] at h
  | cons t rest ih =>
    by_cases h1 : t * 1000000000 + s < s
    · refine ⟨t, ?_, ?_⟩
      · rw [List.find?_cons_of_pos]
        simp [h1]
      · simp only [cutoff_loop, if_pos h1] at h
        exact (Except.error.injEq _ _).mp h.symm |>.symm ▸ by
          cases h; rfl
    · by_cases h2 : e < t * 1000000000 + s
      · refine ⟨t, ?_, ?_⟩
        · rw [List.find?_cons_of_pos]
          simp [h2]
        · simp only [cutoff_loop, if_neg h1, if_pos h2] at h
          cases h; rfl
      · simp only [cutoff_loop, if_neg h1, if_neg h2] at h
        obtain ⟨ts, hfind, herr⟩ := ih h
        refine ⟨ts, ?_, herr⟩
        rw [List.find?_cons_of_neg]
        · exact hfind
        · simp [h1, h2]

/-- Claim C4: `_check_cutoff_limits` converts every relative offset to the
absolute timestamp `t = offset * 1e9 + start_time` and accepts the list
iff every such `t` satisfies `start_time ≤ t` and `t ≤ end_time`
(boundary-inclusive, so an offset of exactly 0 or of exactly the full
duration passes); on the first violation it raises
`InvalidTimestampError` naming the offending converted offset, and
`split_rosbag` then aborts with that very error before any output is
produced. -/
theorem c4_cutoff_validation (s e : ℚ) (tss : List ℚ) :
    (_check_cutoff_limits s e (some tss) = .ok () ↔
      ∀ ts ∈ tss, s ≤ ts * 1000000000 + s ∧ ts * 1000000000 + s ≤ e)
    ∧ (∀ err, _check_cutoff_limits s e (some tss) = .error err →
        (∃ ts, tss.find? (fun ts =>
            decide (ts * 1000000000 + s < s) || decide (e < ts * 1000000000 + s)) = some ts ∧
          err = .invalidTimestamp (ts * 1000000000)) ∧
        ∀ bag inbag fs out force, bag.start_time = s → bag.end_time = e →
          split_rosbag bag inbag fs (some tss) out force = .error err) := by
  constructor
  · exact cutoff_loop_ok_iff s e tss
  · intro err herr
    constructor
    · exact cutoff_loop_error_find s e tss err herr
    · intro bag inbag fs out force hs he
      unfold split_rosbag split_rosbag_run
      rw [show _check_cutoff_limits bag.start_time bag.end_time (some tss) = .error err by
        rw [hs, he]; exact herr]
      rfl

/-- Witness for C4: a list holding the offset 0 and the offset equal to
the full duration is accepted (boundary-inclusive) for a recording
spanning `[0, 10]` nanoseconds. -/
theorem c4_cutoff_validation_witness :
    _check_cutoff_limits 0 10 (some [0, (10:ℚ)/1000000000]) = .ok () :=
  (c4_cutoff_validation 0 10 [0, (10:ℚ)/1000000000]).1.mpr (by
    intro ts hts
    fin_cases hts <;> norm_num)

/-- Claim C9: `_check_export_path` raises the path-collision
`FileExistsError` when the output path equals the input path; raises the
destination-exists `FileExistsError` when the path exists and overwriting
is not forced; with `force_out`, an existing valid rosbag of either
family (a `.bag` file, or a directory holding `*.db3` files) is deleted
before success; and an existing path that is not a recognizable rosbag is
refused with `ValueError` instead of being deleted. -/
theorem c9_prepare_output_path (inbag : FPath) (fs : FileSystem) (p : FPath) (force : Bool) :
    (p = inbag → _check_export_path inbag fs p force = .error .pathCollision)
    ∧ (p ≠ inbag → fs p ≠ .absent → force = false →
        _check_export_path inbag fs p force = .error .destinationExists)
    ∧ (p ≠ inbag → force = true →
        ((fs p = .file ∧ p.suffix = ".bag") ∨ fs p = .dir true) →
        _check_export_path inbag fs p force = .ok (removePath fs p) ∧
          removePath fs p p = .absent)
    ∧ (p ≠ inbag → force = true → fs p ≠ .absent →
        ¬((fs p = .file ∧ p.suffix = ".bag") ∨ fs p = .dir true) →
        _check_export_path inbag fs p force = .error .invalidRosbag) := by
  refine ⟨?_, ?_, ?_, ?_⟩
  · intro h
    simp [_check_export_path, h]
  · intro h1 h2 h3
    subst h3
    cases hfp : fs p with
    | absent => exact absurd hfp h2
    | file => simp [_check_export_path, h1, hfp]
    | dir b => simp [_check_export_path, h1, hfp]
  · intro h1 h2 hrec
    subst h2
    rcases hrec with ⟨hfp, hsfx⟩ | hfp
    · constructor
      · simp [_check_export_path, h1, hfp, delete_rosbag, hsfx]
      · simp [removePath]
    · constructor
      · simp [_check_export_path, h1, hfp, delete_rosbag]
      · simp [removePath]
  · intro h1 h2 h3 h4
    subst h2
    push_neg at h4
    cases hfp : fs p with
    | absent => exact absurd hfp h3
    | file =>
      have hsfx : p.suffix ≠ ".bag" := h4.1 hfp
      simp [_check_export_path, h1, hfp, delete_rosbag, hsfx]
    | dir b =>
      have hb : b = false := by
        by_contra hb
        exact h4.2 (by rw [hfp, eq_true_of_ne_false hb])
      subst hb
      simp [_check_export_path, h1, hfp, delete_rosbag]

/-- Concrete input rosbag path for the C9 witness. -/
def pIn9 : FPath := ⟨"", "in", ".bag"⟩

/-- Concrete existing ROS 1 output path for the C9 witness. -/
def pOut9 : FPath := ⟨"", "out", ".bag"⟩

/-- Concrete existing ROS 2 output directory for the C9 witness. -/
def pDir9 : FPath := ⟨"", "outdir", ""⟩

/-- Concrete existing non-rosbag path for the C9 witness. -/
def pBad9 : FPath := ⟨"", "bad", ""⟩

/-- Concrete file system for the C9 witness. -/
def fs9 : FileSystem := fun q =>
  if q = pOut9 then .file else if q = pDir9 then .dir true
  else if q = pBad9 then .file else .absent

/-- Witness for C9: each of the four branches of the export-path check on
concrete paths. -/
theorem c9_prepare_output_path_witness :
    _check_export_path pIn9 fs9 pIn9 false = .error .pathCollision
    ∧ _check_export_path pIn9 fs9 pOut9 false = .error .destinationExists
    ∧ _check_export_path pIn9 fs9 pOut9 true = .ok (removePath fs9 pOut9)
    ∧ _check_export_path pIn9 fs9 pDir9 true = .ok (removePath fs9 pDir9)
    ∧ _check_export_path pIn9 fs9 pBad9 true = .error .invalidRosbag :=
  ⟨(c9_prepare_output_path pIn9 fs9 pIn9 false).1 rfl,
   (c9_prepare_output_path pIn9 fs9 pOut9 false).2.1 (by decide) (by decide) rfl,
   ((c9_prepare_output_path pIn9 fs9 pOut9 true).2.2.1 (by decide) rfl
     (Or.inl ⟨by decide, by decide⟩)).1,
   ((c9_prepare_output_path pIn9 fs9 pDir9 true).2.2.1 (by decide) rfl
     (Or.inr (by decide))).1,
   (c9_prepare_output_path pIn9 fs9 pBad9 true).2.2.2 (by decide) rfl (by decide)
     (by decide)⟩

/-- Claim C10: calling `split_rosbag` with its default `timestamps = None`
raises `TypeError` (the validator iterates over `None`) before any output
is produced, and in particular does not behave like an empty cutpoint
list. -/
theorem c10_none_is_type_error (bag : BagData) (inbag : FPath) (fs : FileSystem)
    (out : FPath) (force : Bool) :
    split_rosbag bag inbag fs none out force = .error .typeError
    ∧ ∀ r, split_rosbag bag inbag fs (some []) out force = .ok r →
        split_rosbag bag inbag fs none out force ≠
          split_rosbag bag inbag fs (some []) out force := by
  constructor
  · rfl
  · intro r h
    rw [h, show split_rosbag bag inbag fs none out force = .error .typeError from rfl]
    simp

/-- Concrete empty bag for the C10 witness. -/
def bagA : BagData := ⟨0, 0, [], []⟩

/-- Concrete input path for the C10 witness. -/
def inA : FPath := ⟨"", "in", ".bag"⟩

/-- Concrete output base path for the C10 witness. -/
def outA : FPath := ⟨"", "out", ".bag"⟩

/-- Concrete empty file system for the C10 witness. -/
def fsA : FileSystem := fun _ => .absent

/-- Witness for C10: on a concrete bag, `timestamps = None` and
`timestamps = []` genuinely differ — the empty list splits successfully
into one segment while `None` raises. -/
theorem c10_none_is_type_error_witness :
    split_rosbag bagA inA fsA none outA false ≠
      split_rosbag bagA inA fsA (some []) outA false :=
  (c10_none_is_type_error bagA inA fsA outA false).2
    ⟨[⟨exportPathFor outA 1, [], []⟩]⟩ rfl

/-- Claim C2 (amended): a successful `split_rosbag` produces at most
`len(cutpoints) + 1` output segments — one per rotation actually driven
by a message, plus the initial one.  Output logs are opened lazily: when
the stream ends before a cutpoint is ever crossed, the trailing output
logs are NOT created (see the counterexample). -/
theorem c2_amended_segment_count (bag : BagData) (inbag : FPath) (fs : FileSystem)
    (tss : List ℚ) (out : FPath) (force : Bool) (r : SplitResult)
    (h : split_rosbag bag inbag fs (some tss) out force = .ok r) :
    r.segments.length ≤ tss.length + 1 := by
  obtain ⟨st, hrun, hr⟩ := except_map_ok _ _ _ h
  obtain ⟨fs1, cm, wconns, t0, -, -, -, -, -, hloop⟩ :=
    split_rosbag_run_some_ok bag inbag fs tss out force st hrun
  have hcount := split_loop_count _ _ _ _ hloop rfl
    (by show 1 ≤ (cut_list tss bag.end_time).length; rw [cut_list_length]; omega)
  subst hr
  show (st.closed ++ [st.writer]).length ≤ tss.length + 1
  simp only [List.length_append, List.length_singleton]
  obtain ⟨hc1, hc2⟩ := hcount
  rw [cut_list_length] at hc2
  omega

/-- Concrete connection for the C2 counterexample. -/
def conn2 : Connection := ⟨0, "/t", "std_msgs/msg/Int32", "dd", "mm", .ros1Ext "cal" 0⟩

/-- Concrete bag for the C2 counterexample: recording span `[0, 10]`, one
message at `t = 1`. -/
def bag2 : BagData := ⟨0, 10, [conn2], [⟨0, 1, "a"⟩]⟩

/-- Concrete input path for the C2 counterexample. -/
def in2 : FPath := ⟨"", "in", ".bag"⟩

/-- Concrete output base path for the C2 counterexample. -/
def out2 : FPath := ⟨"", "out", ".bag"⟩

/-- Concrete empty file system for the C2 counterexample. -/
def fs2 : FileSystem := fun _ => .absent

/-- Counterexample for C2: with one cutpoint at `t = 5` that no message
ever crosses (the single message is at `t = 1`), `split_rosbag` produces
1 segment, not `len(cutpoints) + 1 = 2` — the trailing output log is
never opened. -/
theorem c2_counterexample :
    (split_rosbag bag2 in2 fs2 (some [(5:ℚ)/1000000000]) out2 false).map
        (fun r => r.segments.length) = .ok 1
    ∧ (1:Nat) ≠ [(5:ℚ)/1000000000].length + 1 := by
  constructor
  · norm_num [split_rosbag, split_rosbag_run, _check_cutoff_limits, cutoff_loop,
      _check_export_path, set_writer_connections, swc_loop, split_loop, split_step,
      dictGet, exportPathFor, is_ros1_format, bag2, in2, out2, fs2, conn2,
      Except.map, List.lookup]
    decide
  · simp

/-- Witness for C2 (amended): on a concrete successful run with no
cutpoints, the bound `≤ 0 + 1` holds. -/
theorem c2_amended_segment_count_witness :
    (SplitResult.mk [⟨exportPathFor out2 1,
        [.ros1 "/t" "std_msgs/msg/Int32" "dd" "mm" "cal" 0],
        [(0, (1:ℚ), "a")]⟩]).segments.length ≤ ([] : List ℚ).length + 1 :=
  c2_amended_segment_count bag2 in2 fs2 [] out2 false _ (by
    norm_num [split_rosbag, split_rosbag_run, _check_cutoff_limits, cutoff_loop,
      _check_export_path, set_writer_connections, swc_loop, split_loop, split_step,
      dictGet, exportPathFor, is_ros1_format, bag2, in2, out2, fs2, conn2,
      Except.map, List.lookup]
    decide)

/-- Claim C6: splitting with an empty cutpoint list is valid and yields
exactly one output segment whose record sequence is the source stream
unchanged — same order, same timestamps, same payloads — with each record
routed through the freshly built channel map, and the segment's channel
table built from the source channel table. -/
theorem c6_empty_cutpoints_identity (bag : BagData) (inbag : FPath) (fs : FileSystem)
    (out : FPath) (force : Bool) (fs1 : FileSystem)
    (cm : List (Nat × Nat)) (wc : List WriterConn)
    (hpath : _check_export_path inbag fs (exportPathFor out 1) force = .ok fs1)
    (hfam : is_ros1_format inbag = is_ros1_format out)
    (hswc : set_writer_connections (is_ros1_format out) bag.connections = .ok (cm, wc))
    (hstart : 0 ≤ bag.start_time)
    (hspan : ∀ m ∈ bag.messages, bag.start_time ≤ m.ts ∧ m.ts ≤ bag.end_time)
    (hmap : ∀ m ∈ bag.messages, (dictGet cm m.cid).isSome) :
    split_rosbag bag inbag fs (some []) out force =
      .ok ⟨[⟨exportPathFor out 1, wc,
        bag.messages.map (fun m => ((dictGet cm m.cid).getD 0, m.ts, m.data))⟩]⟩ := by
  unfold split_rosbag split_rosbag_run
  simp only [_check_cutoff_limits, cutoff_loop, hpath]
  rw [is_ros1_format_exportPathFor, hfam]
  simp only [bne_self_eq_false]
  rw [if_neg (by simp : ¬(false = true))]
  simp only [hswc, List.map_nil, List.nil_append, List.get?_cons_zero]
  rw [split_loop_stay _ _ _ ?hm]
  case hm =>
    intro m hm
    refine ⟨⟨(hspan m hm).1, ?_⟩, hmap m hm⟩
    exact le_trans (hspan m hm).2 (le_add_of_nonneg_left hstart)
  simp [Except.map]

/-- Concrete connection for the C6 witness. -/
def connW6 : Connection := ⟨7, "/gps", "sensor_msgs/msg/NavSatFix", "dd", "mm", .ros1Ext "cal" 1⟩

/-- Concrete bag for the C6 witness: span `[1, 3]`, two messages. -/
def bagW6 : BagData := ⟨1, 3, [connW6], [⟨7, 1, "p"⟩, ⟨7, 3, "q"⟩]⟩

/-- Concrete input path for the C6 witness. -/
def inW6 : FPath := ⟨"", "src", ".bag"⟩

/-- Concrete output base path for the C6 witness. -/
def outW6 : FPath := ⟨"", "dst", ".bag"⟩

/-- Concrete empty file system for the C6 witness. -/
def fsW6 : FileSystem := fun _ => .absent

/-- Concrete routing map for the C6 witness. -/
def cmW6 : List (Nat × Nat) := [(7, 0)]

/-- Concrete destination channel table for the C6 witness. -/
def wcW6 : List WriterConn := [.ros1 "/gps" "sensor_msgs/msg/NavSatFix" "dd" "mm" "cal" 1]

/-- Witness for C6: the identity split on a concrete two-message bag. -/
theorem c6_empty_cutpoints_identity_witness :
    split_rosbag bagW6 inW6 fsW6 (some []) outW6 false =
      .ok ⟨[⟨exportPathFor outW6 1, wcW6,
        bagW6.messages.map (fun m => ((dictGet cmW6 m.cid).getD 0, m.ts, m.data))⟩]⟩ :=
  c6_empty_cutpoints_identity bagW6 inW6 fsW6 outW6 false fsW6 cmW6 wcW6 rfl rfl rfl
    (by norm_num [bagW6])
    (by intro m hm; simp only [bagW6] at hm; fin_cases hm <;> norm_num [bagW6])
    (by intro m hm; simp only [bagW6] at hm; fin_cases hm <;> decide)

/-- Claim C8: the routing map returned by `set_writer_connections` has an
entry for exactly the source channels whose topic is not the synthetic
`/events/write_split` bookkeeping channel; that channel never appears in
any writer's channel table; and on every successful split every output
segment's channel table is the one rebuilt from scratch from the source
channel table (identical on every rotation — never merged with a prior
mapping). -/
theorem c8_routing_rebuilt (f : Bool) (conns : List Connection)
    (cm : List (Nat × Nat)) (wc : List WriterConn)
    (hswc : set_writer_connections f conns = .ok (cm, wc)) :
    (cm.map Prod.fst =
      (conns.filter (fun c => c.topic ≠ "/events/write_split")).map Connection.id)
    ∧ (∀ w ∈ wc, WriterConn.topic w ≠ "/events/write_split")
    ∧ ∀ bag inbag fs tss out force r,
        bag.connections = conns → f = is_ros1_format out →
        split_rosbag bag inbag fs (some tss) out force = .ok r →
        ∀ seg ∈ r.segments, seg.conns = wc := by
  have hspec := swc_loop_spec f conns [] [] cm wc hswc
  refine ⟨by simpa using hspec.1, ?_, ?_⟩
  · intro w hw
    have hmem : WriterConn.topic w ∈ wc.map WriterConn.topic := List.mem_map_of_mem _ hw
    rw [hspec.2] at hmem
    simp only [List.map_nil, List.nil_append] at hmem
    obtain ⟨c, hcmem, hctop⟩ := List.mem_map.mp hmem
    have hne := (List.mem_filter.mp hcmem).2
    rw [← hctop]
    simpa using hne
  · intro bag inbag fs tss out force r hconns hf h
    obtain ⟨st, hrun, hr⟩ := except_map_ok _ _ _ h
    obtain ⟨fs1, cm', wconns', t0, -, -, -, hswc', -, hloop⟩ :=
      split_rosbag_run_some_ok bag inbag fs tss out force st hrun
    rw [hconns, ← hf, hswc] at hswc'
    have hpair : (cm, wc) = (cm', wconns') := by injection hswc'
    obtain ⟨hcm, hwc⟩ := Prod.mk.injEq _ _ _ _ |>.mp hpair
    subst hr
    have hconn := split_loop_conns _ cm wc ?hg _ _ _ hloop ?h1 ?h2
    case hg =>
      show set_writer_connections (is_ros1_format out) bag.connections = .ok (cm, wc)
      rw [hconns, ← hf]
      exact hswc
    case h1 =>
      show wconns' = wc
      exact hwc.symm
    case h2 =>
      intro w hw
      simp at hw
    intro seg hseg
    rcases List.mem_append.mp hseg with hseg | hseg
    · exact hconn.2 seg hseg
    · rw [List.mem_singleton.mp hseg]
      exact hconn.1

/-- Concrete source channel table for the C8 witness, holding the
synthetic bookkeeping channel next to a regular one. -/
def connsC8 : List Connection :=
  [⟨0, "/events/write_split", "rosbag2_interfaces/msg/WriteSplitEvent", "", "", .ros2Ext "cdr" "[]"⟩,
   ⟨1, "/imu", "sensor_msgs/msg/Imu", "", "", .ros2Ext "cdr" "[]"⟩]

/-- Witness for C8: on the concrete channel table, the routing map keys
are exactly the id of the non-bookkeeping channel and the bookkeeping
topic is absent from the writer's table. -/
theorem c8_routing_rebuilt_witness :
    ([((1:Nat), (0:Nat))] : List (Nat × Nat)).map Prod.fst =
      (connsC8.filter (fun c => c.topic ≠ "/events/write_split")).map Connection.id
    ∧ ∀ w ∈ [WriterConn.ros2 "/imu" "sensor_msgs/msg/Imu" "cdr" "[]"],
        WriterConn.topic w ≠ "/events/write_split" :=
  ⟨(c8_routing_rebuilt false connsC8 [(1, 0)]
      [.ros2 "/imu" "sensor_msgs/msg/Imu" "cdr" "[]"] rfl).1,
   (c8_routing_rebuilt false connsC8 [(1, 0)]
      [.ros2 "/imu" "sensor_msgs/msg/Imu" "cdr" "[]"] rfl).2.1⟩

/-- Claim C7: when the input log's container family and the output
path's family differ (detected from the path suffixes), `split_rosbag`
never succeeds — and as soon as the preceding cutoff and path checks
pass, it fails precisely with the `NotImplementedError` for rosbag
conversion, before any writer is even created. -/
theorem c7_cross_family_rejected (bag : BagData) (inbag : FPath) (fs : FileSystem)
    (tsopt : Option (List ℚ)) (out : FPath) (force : Bool)
    (hfam : is_ros1_format inbag ≠ is_ros1_format out) :
    (∀ r, split_rosbag bag inbag fs tsopt out force ≠ .ok r)
    ∧ ∀ tss fs1, tsopt = some tss →
        cutoff_loop bag.start_time bag.end_time tss = .ok () →
        _check_export_path inbag fs (exportPathFor out 1) force = .ok fs1 →
        split_rosbag bag inbag fs tsopt out force = .error .notImplementedConversion := by
  constructor
  · intro r h
    obtain ⟨st, hrun, -⟩ := except_map_ok _ _ _ h
    cases tsopt with
    | none =>
      rw [show split_rosbag_run bag inbag fs none out force = .error .typeError from rfl] at hrun
      exact Except.noConfusion hrun
    | some tss =>
      obtain ⟨fs1, cm, wc, t0, -, -, hfam', -, -, -⟩ :=
        split_rosbag_run_some_ok bag inbag fs tss out force st hrun
      exact hfam hfam'
  · intro tss fs1 htss hc hp
    subst htss
    have hcond : (is_ros1_format inbag != is_ros1_format (exportPathFor out 1)) = true := by
      rw [is_ros1_format_exportPathFor]
      exact bne_iff_ne.mpr hfam
    unfold split_rosbag split_rosbag_run
    simp only [_check_cutoff_limits, hc, hp, hcond]
    rfl

/-- Concrete empty bag for the C7 witness. -/
def bagW7 : BagData := ⟨0, 0, [], []⟩

/-- Concrete ROS 1 input path for the C7 witness. -/
def inW7 : FPath := ⟨"", "a", ".bag"⟩

/-- Concrete ROS 2 style (no `.bag` suffix) output path for the C7
witness. -/
def outW7 : FPath := ⟨"", "b", ""⟩

/-- Concrete empty file system for the C7 witness. -/
def fsW7 : FileSystem := fun _ => .absent

/-- Witness for C7: a `.bag` input split towards a ROS 2 style output
path fails with the conversion error. -/
theorem c7_cross_family_rejected_witness :
    split_rosbag bagW7 inW7 fsW7 (some []) outW7 false = .error .notImplementedConversion :=
  (c7_cross_family_rejected bagW7 inW7 fsW7 (some []) outW7 false (by decide)).2
    [] fsW7 rfl rfl rfl

/-- Concrete empty bag spanning `[5, 10]` for the C3 counterexample. -/
def bagC3 : BagData := ⟨5, 10, [], []⟩

/-- Concrete input path for the C3 counterexample. -/
def inC3 : FPath := ⟨"", "in", ".bag"⟩

/-- Concrete output base path for the C3 counterexample. -/
def outC3 : FPath := ⟨"", "out", ".bag"⟩

/-- Concrete empty file system for the C3 counterexample. -/
def fsC3 : FileSystem := fun _ => .absent

/-- Counterexample for C3: for a recording spanning `[5, 10]` with no
cutpoints, the upper bound of the (only, hence last) segment is
`start_time + end_time = 15`, not `end_time = 10`: the code appends the
absolute `end_time` to a list of relative offsets and later adds
`start_time` to it again. -/
theorem c3_counterexample :
    (split_rosbag_run bagC3 inC3 fsC3 (some []) outC3 false).map SplitState.e_clip = .ok 15
    ∧ (15:ℚ) ≠ bagC3.end_time := by
  have h0 : cutoff_loop bagC3.start_time bagC3.end_time [] = .ok () := rfl
  have h1 : _check_export_path inC3 fsC3 (exportPathFor outC3 1) false = .ok fsC3 := rfl
  have h2 : (is_ros1_format inC3 != is_ros1_format (exportPathFor outC3 1)) = false := rfl
  have h3 : set_writer_connections (is_ros1_format (exportPathFor outC3 1)) bagC3.connections
      = .ok ([], []) := rfl
  constructor
  · unfold split_rosbag_run
    simp only [_check_cutoff_limits, h0, h1, h2, h3, List.map_nil, List.nil_append,
      List.get?_cons_zero]
    rw [if_neg (by simp : ¬(false = true))]
    simp only [show bagC3.messages = [] from rfl, split_loop, Except.map]
    norm_num [bagC3]
  · norm_num [bagC3]

/-- Claim C3 (amended): the cut list is extended with a sentinel entry
whose stored value is `end_time`, and every rotation installs the bound
`start_time + timestamps[k-1]`; for a real cutpoint this is
`start_time + offset * 1e9` exactly as claimed, but for the sentinel it
is `start_time + end_time`, not `end_time`. -/
theorem c3_amended_sentinel (bag_start bag_end : ℚ) (tss : List ℚ) :
    (∀ k t, tss.get? k = some t →
      seg_end_bound bag_start (cut_list tss bag_end) (k + 1) =
        some (bag_start + t * 1000000000))
    ∧ seg_end_bound bag_start (cut_list tss bag_end) (tss.length + 1) =
        some (bag_start + bag_end) := by
  constructor
  · intro k t ht
    obtain ⟨hk, -⟩ := List.get?_eq_some.mp ht
    unfold seg_end_bound
    rw [Nat.add_sub_cancel, cut_list_def,
      List.get?_append (by simpa using hk), List.get?_map, ht]
    rfl
  · unfold seg_end_bound
    rw [Nat.add_sub_cancel, cut_list_def,
      show tss.length = (tss.map (fun ts => ts * 1000000000)).length by simp,
      List.get?_concat_length]
    rfl

/-- Witness for C3 (amended): with `start_time = 5`, `end_time = 10` and
one cutpoint offset 2, the first bound is `5 + 2e9` and the sentinel
bound is `5 + 10`. -/
theorem c3_amended_sentinel_witness :
    seg_end_bound 5 (cut_list [(2:ℚ)] 10) 1 = some (5 + 2 * 1000000000)
    ∧ seg_end_bound 5 (cut_list [(2:ℚ)] 10) 2 = some (5 + 10) :=
  ⟨(c3_amended_sentinel 5 10 [2]).1 0 2 rfl, (c3_amended_sentinel 5 10 [2]).2⟩

/-- Concrete connection for the C1 run. -/
def connC1 : Connection := ⟨0, "/scan", "sensor_msgs/msg/LaserScan", "dd", "mm", .ros1Ext "cal" 0⟩

/-- Concrete bag for the C1 run: span `[0, 10]`, messages at `t = 1` and
`t = 5`. -/
def bagC1 : BagData := ⟨0, 10, [connC1], [⟨0, 1, "a"⟩, ⟨0, 5, "b"⟩]⟩

/-- Concrete input path for the C1 run. -/
def inC1 : FPath := ⟨"", "in", ".bag"⟩

/-- Concrete output base path for the C1 run. -/
def outC1 : FPath := ⟨"", "out", ".bag"⟩

/-- Concrete empty file system for the C1 run. -/
def fsC1 : FileSystem := fun _ => .absent

/-- Concrete destination channel table of the C1 run. -/
def wcC1 : List WriterConn := [.ros1 "/scan" "sensor_msgs/msg/LaserScan" "dd" "mm" "cal" 0]

/-- Output segments actually produced by the C1 run. -/
def segsC1 : List WriterData :=
  [⟨exportPathFor outC1 1, wcC1, [(0, 1, "a")]⟩,
   ⟨exportPathFor outC1 2, wcC1, []⟩]

/-- Claim C1 fails on the code: with a cut at `t = 3`, the source message
at `t = 5` crosses the segment boundary, the partitioner rotates to the
next output log, but never retries (or writes) the triggering message —
it lands in no output segment at all, so the partition property (exactly
one copy of every source message) is violated. -/
theorem c1_rotation_drops_message :
    split_rosbag bagC1 inC1 fsC1 (some [(3:ℚ)/1000000000]) outC1 false = .ok ⟨segsC1⟩
    ∧ ∀ seg ∈ segsC1, ∀ d : Nat, (d, (5:ℚ), "b") ∉ seg.msgs := by
  constructor
  · norm_num [split_rosbag, split_rosbag_run, _check_cutoff_limits, cutoff_loop,
      _check_export_path, set_writer_connections, swc_loop, split_loop, split_step,
      dictGet, exportPathFor, is_ros1_format, bagC1, inC1, outC1, fsC1, connC1,
      segsC1, wcC1, Except.map, List.lookup]
    decide
  · intro seg hseg d
    simp only [segsC1] at hseg
    fin_cases hseg
    · simp only [List.mem_singleton]
      intro hc
      have h5 := congrArg (fun p => p.2.1) hc
      norm_num at h5
    · simp

/-- Concrete connection for the C5 run. -/
def connC5 : Connection := ⟨0, "/odom", "nav_msgs/msg/Odometry", "dd", "mm", .ros1Ext "cal" 0⟩

/-- Concrete bag for the C5 run: span `[0, 100]`, a message exactly at
the first cutpoint `t = 30` and one at `t = 30.0001`. -/
def bagC5 : BagData := ⟨0, 100, [connC5], [⟨0, 30, "x"⟩, ⟨0, 30 + 1/10000, "y"⟩]⟩

/-- Concrete input path for the C5 run. -/
def inC5 : FPath := ⟨"", "in", ".bag"⟩

/-- Concrete output base path for the C5 run. -/
def outC5 : FPath := ⟨"", "out", ".bag"⟩

/-- Concrete empty file system for the C5 run. -/
def fsC5 : FileSystem := fun _ => .absent

/-- Concrete destination channel table of the C5 run. -/
def wcC5 : List WriterConn := [.ros1 "/odom" "nav_msgs/msg/Odometry" "dd" "mm" "cal" 0]

/-- Output segments actually produced by the C5 run. -/
def segsC5 : List WriterData :=
  [⟨exportPathFor outC5 1, wcC5, [(0, 30, "x")]⟩,
   ⟨exportPathFor outC5 2, wcC5, []⟩]

/-- Claim C5 fails on the code: in the spec's own scenario (span
`[0, 100]`, cutpoints `[30, 70]`), the message exactly at `t = 30` is
routed to segment 1 (inclusive upper bound — that half of the claim
holds, and the new segment's lower bound is set to the triggering
message's own timestamp), but the message at `t = 30.0001` does NOT go
to segment 2: it triggers the rotation and is dropped, landing in no
segment. -/
theorem c5_boundary_policy :
    split_rosbag bagC5 inC5 fsC5 (some [(30:ℚ)/1000000000, (70:ℚ)/1000000000]) outC5 false
      = .ok ⟨segsC5⟩
    ∧ ∀ seg ∈ segsC5, ∀ d : Nat, (d, (30:ℚ) + 1/10000, "y") ∉ seg.msgs := by
  constructor
  · have e1 : ¬("out" ++ toString 1 = "in") := by decide
    have e2 : ¬("out" ++ toString 2 = "in") := by decide
    have e3 : ¬("/odom" = "/events/write_split") := by decide
    norm_num [split_rosbag, split_rosbag_run, _check_cutoff_limits, cutoff_loop,
      _check_export_path, set_writer_connections, swc_loop, split_loop, split_step,
      dictGet, exportPathFor, is_ros1_format, bagC5, inC5, outC5, fsC5, connC5,
      segsC5, wcC5, Except.map, List.lookup, e1, e2, e3]
  · intro seg hseg d
    simp only [segsC5] at hseg
    fin_cases hseg
    · simp only [List.mem_singleton]
      intro hc
      have h5 := congrArg (fun p => p.2.1) hc
      norm_num at h5
    · simp

end RosbagTools
